import Mathlib

/-!
Shallow embedding of `src/src/task1_backend/src/icrc2.rs`, a single-asset
fungible-token ledger (ICRC2-style) for the Internet Computer.

Modelling conventions:
* `Principal` (opaque caller identity with equality and hashing) is modelled
  as `Nat`.
* Rust `u64` values are modelled as `Nat` with an explicit `% 2 ^ 64`
  wherever the source performs arithmetic that can overflow (`+=` on
  balances, on `total_supply` and on `burnt_cycles`); release-profile Rust,
  the deployment norm for canisters, wraps on overflow.  The guarded
  subtraction in `transfer` cannot underflow, so plain `Nat` subtraction is
  exact there.
* `HashMap` is modelled as an association list where an update replaces the
  first entry with the given key, or appends a fresh entry when the key is
  absent; lookups read the first matching entry.  `HashSet` is modelled as a
  list with membership-guarded insertion.
* Functions returning `Result<(), String>` are modelled as returning the
  (possibly unchanged) state paired with `Except String Unit`, carrying the
  literal error strings of the source.
* `ic_cdk::caller()` is an ambient host-supplied identity; it becomes an
  explicit `caller` argument of the functions that read it.
-/

abbrev Principal := Nat

deriving instance DecidableEq for Except

/-- Width of a Rust `u64`: `2 ^ 64`. -/
def u64Mod : Nat := 18446744073709551616

/-- Association-list lookup: first entry with the given key (`HashMap::get`). -/
def lookupA {α : Type} : List (Principal × α) → Principal → Option α
  | [], _ => none
  | (k', w) :: rest, k => if k = k' then some w else lookupA rest k

/-- Association-list update: replace the first entry with the given key, or
append a fresh entry (`HashMap::insert` / `entry(..).or_insert(..)` then
assignment). -/
def setA {α : Type} : List (Principal × α) → Principal → α → List (Principal × α)
  | [], k, v => [(k, v)]
  | (k', w) :: rest, k, v =>
      if k = k' then (k, v) :: rest else (k', w) :: setA rest k v

/-- Lookup with a default (`map.get(&k).unwrap_or(&d)`). -/
def getD (m : List (Principal × Nat)) (k : Principal) (d : Nat) : Nat :=
  (lookupA m k).getD d

/-- `HashSet::insert`: a no-op when the element is already present. -/
def insertSet (s : List Principal) (x : Principal) : List Principal :=
  if x ∈ s then s else s ++ [x]

/-- Mirrors the Rust `TransactionRecord` struct (field `from` is renamed
`from_` because `from` is a Lean keyword). -/
structure TransactionRecord where
  from_ : Principal
  to_ : Principal
  amount : Nat
  post_balance_from : Nat
  post_balance_to : Nat
  cycles_burnt : Nat
  reason : String
deriving DecidableEq, Repr

/-- Mirrors the Rust `TokenICRC2` struct. -/
structure TokenICRC2 where
  balances : List (Principal × Nat)
  allowances : List (Principal × List (Principal × Nat))
  minters : List Principal
  owner : Principal
  total_supply : Nat
  decimals : Nat
  name : String
  symbol : String
  burnt_cycles : Nat
  transaction_history : List TransactionRecord
deriving DecidableEq, Repr

namespace TokenICRC2

/-- `TokenICRC2::new`. -/
def new (owner : Principal) (total_supply : Nat) (decimals : Nat)
    (name symbol : String) : TokenICRC2 :=
  { balances := [(owner, total_supply)]
    allowances := []
    minters := [owner]
    owner := owner
    total_supply := total_supply
    decimals := decimals
    name := name
    symbol := symbol
    burnt_cycles := 0
    transaction_history := [] }

/-- `TokenICRC2::get_owner`. -/
def get_owner (t : TokenICRC2) : Principal := t.owner

/-- `TokenICRC2::balance_of`. -/
def balance_of (t : TokenICRC2) (user : Principal) : Nat :=
  getD t.balances user 0

/-- `TokenICRC2::allowance`. -/
def allowance (t : TokenICRC2) (owner spender : Principal) : Nat :=
  match lookupA t.allowances owner with
  | some spenders => getD spenders spender 0
  | none => 0

/-- The `reason` string `transfer` uses when the cumulative counter is positive. -/
def cyclesBurntReason : String :=
  "Cycles were burnt due to transfer fees or maintenance costs."

/-- The `reason` string `transfer` uses when the cumulative counter is zero. -/
def noCyclesReason : String :=
  "No cycles were burnt as no transfer fees applied."

/-- `TokenICRC2::transfer`.  The early `Err` return happens before any
mutation, so the original state is returned unchanged on failure.  The
credit `*self.balances.entry(to).or_insert(0) += amount` wraps at `2 ^ 64`
(the Rust field `to` is rendered `to_`, a Lean keyword otherwise). -/
def transfer (t : TokenICRC2) (from_ to_ : Principal) (amount : Nat) :
    TokenICRC2 × Except String Unit :=
  let from_balance := getD t.balances from_ 0
  if from_balance < amount then
    (t, Except.error "Insufficient balance")
  else
    let balances1 := setA t.balances from_ (from_balance - amount)
    let balances2 := setA balances1 to_ ((getD balances1 to_ 0 + amount) % u64Mod)
    let cycles_burnt := t.burnt_cycles
    let reason := if cycles_burnt > 0 then cyclesBurntReason else noCyclesReason
    let record : TransactionRecord :=
      { from_ := from_
        to_ := to_
        amount := amount
        post_balance_from := getD balances2 from_ 0
        post_balance_to := getD balances2 to_ 0
        cycles_burnt := cycles_burnt
        reason := reason }
    ({ t with
        balances := balances2
        transaction_history := t.transaction_history ++ [record] },
     Except.ok ())

/-- `TokenICRC2::approve`: `entry(owner).or_insert_with(HashMap::new).insert(spender, amount)`. -/
def approve (t : TokenICRC2) (owner spender : Principal) (amount : Nat) :
    TokenICRC2 × Except String Unit :=
  let spenders :=
    match lookupA t.allowances owner with
    | some m => m
    | none => []
  ({ t with allowances := setA t.allowances owner (setA spenders spender amount) },
   Except.ok ())

/-- `TokenICRC2::burn_cycles`: `self.burnt_cycles += cycles`, wrapping at `2 ^ 64`. -/
def burn_cycles (t : TokenICRC2) (cycles : Nat) : TokenICRC2 :=
  { t with burnt_cycles := (t.burnt_cycles + cycles) % u64Mod }

/-- `TokenICRC2::add_minter`; `caller` is the ambient `ic_cdk::caller()`. -/
def add_minter (t : TokenICRC2) (caller minter : Principal) :
    TokenICRC2 × Except String Unit :=
  if caller ≠ t.get_owner then
    (t, Except.error "Only the owner can add minters")
  else
    ({ t with minters := insertSet t.minters minter }, Except.ok ())

/-- `TokenICRC2::mint`; `caller` is the ambient `ic_cdk::caller()`.  Both the
credit to the destination and the bump of `total_supply` wrap at `2 ^ 64`. -/
def mint (t : TokenICRC2) (caller to_ : Principal) (amount : Nat) :
    TokenICRC2 × Except String Unit :=
  if ¬ t.minters.contains caller then
    (t, Except.error "Caller is not authorized to mint")
  else
    let balances1 := setA t.balances to_ ((getD t.balances to_ 0 + amount) % u64Mod)
    let record : TransactionRecord :=
      { from_ := caller
        to_ := to_
        amount := amount
        post_balance_from := 0
        post_balance_to := getD balances1 to_ 0
        cycles_burnt := 0
        reason := "Minting operation has no cycle burn cost." }
    ({ t with
        balances := balances1
        total_supply := (t.total_supply + amount) % u64Mod
        transaction_history := t.transaction_history ++ [record] },
     Except.ok ())

/-- `TokenICRC2::get_transaction_history` (returns a snapshot copy). -/
def get_transaction_history (t : TokenICRC2) : List TransactionRecord :=
  t.transaction_history

end TokenICRC2

/-- Sum of all values stored in the balances map. -/
def sumBalances (t : TokenICRC2) : Nat :=
  (t.balances.map Prod.snd).sum

/-- One mutating ledger operation, for reasoning about arbitrary operation
sequences.  Query operations do not change the state, so they are omitted. -/
inductive Op : Type
  | transfer (from_ to_ : Principal) (amount : Nat)
  | approve (owner spender : Principal) (amount : Nat)
  | mint (caller to_ : Principal) (amount : Nat)
  | add_minter (caller minter : Principal)
  | burn_cycles (cycles : Nat)
deriving DecidableEq, Repr

/-- Apply one operation, keeping the (possibly unchanged) resulting state. -/
def applyOp (t : TokenICRC2) : Op → TokenICRC2
  | Op.transfer f to_ a => (t.transfer f to_ a).1
  | Op.approve o s a => (t.approve o s a).1
  | Op.mint c to_ a => (t.mint c to_ a).1
  | Op.add_minter c m => (t.add_minter c m).1
  | Op.burn_cycles c => t.burn_cycles c

/-- Apply a sequence of operations in order. -/
def applyOps (t : TokenICRC2) : List Op → TokenICRC2
  | [] => t
  | op :: rest => applyOps (applyOp t op) rest

/-!
Canister-boundary layer: the exported query/update methods dispatch over the
`thread_local` `Option<TokenICRC2>` cell.  `caller` stands for
`ic_cdk::caller()`.
-/

/-- Exported `init_token` update method. -/
def init_token_canister (caller : Principal) (symbol name : String)
    (total_supply : Nat) (decimals : Nat) : Option TokenICRC2 :=
  some (TokenICRC2.new caller total_supply decimals name symbol)

/-- Exported `add_minter` update method. -/
def add_minter_canister (s : Option TokenICRC2) (caller minter : Principal) :
    Option TokenICRC2 × Except String Unit :=
  match s with
  | some t => let r := t.add_minter caller minter; (some r.1, r.2)
  | none => (none, Except.error "Token not initialized")

/-- Exported `mint` update method. -/
def mint_canister (s : Option TokenICRC2) (caller to_ : Principal) (amount : Nat) :
    Option TokenICRC2 × Except String Unit :=
  match s with
  | some t => let r := t.mint caller to_ amount; (some r.1, r.2)
  | none => (none, Except.error "Token not initialized")

/-- Exported `balance_of` query method. -/
def balance_of_canister (s : Option TokenICRC2) (user : Principal) : Nat :=
  match s with
  | some t => t.balance_of user
  | none => 0

/-- Exported `total_supply` query method. -/
def total_supply_canister (s : Option TokenICRC2) : Nat :=
  match s with
  | some t => t.total_supply
  | none => 0

/-- Exported `symbol` query method. -/
def symbol_canister (s : Option TokenICRC2) : String :=
  match s with
  | some t => t.symbol
  | none => ""

/-- Exported `name` query method. -/
def name_canister (s : Option TokenICRC2) : String :=
  match s with
  | some t => t.name
  | none => ""

/-- Exported `decimals` query method. -/
def decimals_canister (s : Option TokenICRC2) : Nat :=
  match s with
  | some t => t.decimals
  | none => 0

/-- Exported `allowance` query method. -/
def allowance_canister (s : Option TokenICRC2) (owner spender : Principal) : Nat :=
  match s with
  | some t => t.allowance owner spender
  | none => 0

/-- Exported `approve` update method (`caller` is the implicit owner). -/
def approve_canister (s : Option TokenICRC2) (caller spender : Principal)
    (amount : Nat) : Option TokenICRC2 × Except String Unit :=
  match s with
  | some t => let r := t.approve caller spender amount; (some r.1, r.2)
  | none => (none, Except.error "Token not initialized")

/-- Exported `transfer` update method (`caller` is the implicit source). -/
def transfer_canister (s : Option TokenICRC2) (caller to_ : Principal)
    (amount : Nat) : Option TokenICRC2 × Except String Unit :=
  match s with
  | some t => let r := t.transfer caller to_ amount; (some r.1, r.2)
  | none => (none, Except.error "Token not initialized")

/-- Exported `burn_cycles` update method.  The Rust function returns `()`,
never a `Result`: when the token is uninitialized it silently does nothing
and still replies successfully.  The unconditional `()` reply is modelled as
`Except.ok ()`. -/
def burn_cycles_canister (s : Option TokenICRC2) (cycles : Nat) :
    Option TokenICRC2 × Except String Unit :=
  match s with
  | some t => (some (t.burn_cycles cycles), Except.ok ())
  | none => (none, Except.ok ())

/-- Exported `burnt_cycles` query method. -/
def burnt_cycles_canister (s : Option TokenICRC2) : Nat :=
  match s with
  | some t => t.burnt_cycles
  | none => 0

/-- Exported `get_transaction_history` query method. -/
def get_transaction_history_canister (s : Option TokenICRC2) :
    List TransactionRecord :=
  match s with
  | some t => t.get_transaction_history
  | none => []

/-- Well-formedness: every stored balance fits in a `u64`.  This is the
typing invariant of the Rust `HashMap<Principal, u64>` field. -/
def balancesWF (t : TokenICRC2) : Prop :=
  ∀ p ∈ t.balances, p.2 < u64Mod

/-- The supply/balances coupling that actually holds under wrapping `u64`
arithmetic: `total_supply` equals the sum of all balances reduced mod `2 ^ 64`. -/
def supplyInv (t : TokenICRC2) : Prop :=
  t.total_supply = sumBalances t % u64Mod

/-- Replace the whole allowances map of a state, for stating that operations
neither read nor write it. -/
def setAllowances (t : TokenICRC2)
    (A : List (Principal × List (Principal × Nat))) : TokenICRC2 :=
  { t with allowances := A }

/-!  Association-list lemmas. -/

theorem lookupA_setA_self {α : Type} (m : List (Principal × α)) (k : Principal)
    (v : α) : lookupA (setA m k v) k = some v := by
  induction m with
  | nil => simp [setA, lookupA]
  | cons hd tl ih =>
    obtain ⟨a, w⟩ := hd
    by_cases h : k = a
    · simp [setA, lookupA, h]
    · simp [setA, lookupA, h, ih]

theorem lookupA_setA_other {α : Type} (m : List (Principal × α))
    (k k' : Principal) (v : α) (h : k' ≠ k) :
    lookupA (setA m k v) k' = lookupA m k' := by
  induction m with
  | nil => simp [setA, lookupA, h]
  | cons hd tl ih =>
    obtain ⟨a, w⟩ := hd
    by_cases hk : k = a
    · subst hk
      simp [setA, lookupA, h]
    · simp only [setA, if_neg hk, lookupA]
      by_cases hk' : k' = a
      · simp [hk']
      · simp [hk', ih]

theorem getD_setA_self (m : List (Principal × Nat)) (k : Principal) (v : Nat) :
    getD (setA m k v) k 0 = v := by
  simp [getD, lookupA_setA_self]

theorem getD_setA_other (m : List (Principal × Nat)) (k k' : Principal)
    (v : Nat) (h : k' ≠ k) : getD (setA m k v) k' 0 = getD m k' 0 := by
  simp [getD, lookupA_setA_other m k k' v h]

/-- Updating one key changes the sum of values by replacing the first bound
value (read by `getD`) with the new one. -/
theorem sum_setA (m : List (Principal × Nat)) (k : Principal) (v : Nat) :
    ((setA m k v).map Prod.snd).sum + getD m k 0 = (m.map Prod.snd).sum + v := by
  induction m with
  | nil => simp [setA, getD, lookupA]
  | cons hd tl ih =>
    obtain ⟨a, w⟩ := hd
    by_cases h : k = a
    · subst h
      simp [setA, getD, lookupA]
      omega
    · have hg : getD ((a, w) :: tl) k 0 = getD tl k 0 := by
        simp [getD, lookupA, h]
      simp only [setA, if_neg h, List.map_cons, List.sum_cons, hg]
      omega

theorem reasons_ne :
    TokenICRC2.cyclesBurntReason ≠ TokenICRC2.noCyclesReason := by decide

theorem lookupA_mem {α : Type} (m : List (Principal × α)) (k : Principal)
    (v : α) (h : lookupA m k = some v) : (k, v) ∈ m := by
  induction m with
  | nil => simp [lookupA] at h
  | cons hd tl ih =>
    obtain ⟨a, w⟩ := hd
    by_cases hk : k = a
    · subst hk
      simp [lookupA] at h
      simp [h]
    · simp [lookupA, hk] at h
      simp [ih h]

theorem balance_of_lt_of_WF (t : TokenICRC2) (x : Principal)
    (h : balancesWF t) : t.balance_of x < u64Mod := by
  unfold TokenICRC2.balance_of getD
  cases hl : lookupA t.balances x with
  | none => simp [u64Mod]
  | some v => simpa using h _ (lookupA_mem _ _ _ hl)

theorem mem_setA {α : Type} (m : List (Principal × α)) (k : Principal) (v : α)
    (p : Principal × α) (hp : p ∈ setA m k v) : p = (k, v) ∨ p ∈ m := by
  induction m with
  | nil => simpa [setA] using hp
  | cons hd tl ih =>
    obtain ⟨a, w⟩ := hd
    by_cases h : k = a
    · simp only [setA, if_pos h, List.mem_cons] at hp
      rcases hp with hp | hp
      · exact Or.inl hp
      · exact Or.inr (List.mem_cons_of_mem _ hp)
    · simp only [setA, if_neg h, List.mem_cons] at hp
      rcases hp with hp | hp
      · exact Or.inr (by simp [hp])
      · rcases ih hp with hh | hh
        · exact Or.inl hh
        · exact Or.inr (List.mem_cons_of_mem _ hh)

theorem balancesWF_setA (m : List (Principal × Nat)) (k v : Nat)
    (hm : ∀ p ∈ m, p.2 < u64Mod) (hv : v < u64Mod) :
    ∀ p ∈ setA m k v, p.2 < u64Mod := by
  intro p hp
  rcases mem_setA m k v p hp with h | h
  · simpa [h] using hv
  · exact hm p h

theorem u64Mod_pos : 0 < u64Mod := by decide

/-- Every operation keeps each stored balance below `2 ^ 64`. -/
theorem balancesWF_applyOp (t : TokenICRC2) (op : Op) (h : balancesWF t) :
    balancesWF (applyOp t op) := by
  cases op with
  | transfer f to_ a =>
    simp only [applyOp]
    unfold TokenICRC2.transfer
    by_cases hb : getD t.balances f 0 < a
    · simpa [hb] using h
    · simp only [hb, if_false, if_neg hb]
      intro p hp
      refine balancesWF_setA _ _ _ ?_ (Nat.mod_lt _ u64Mod_pos) p hp
      refine balancesWF_setA _ _ _ h ?_
      calc getD t.balances f 0 - a ≤ getD t.balances f 0 := Nat.sub_le _ _
        _ = t.balance_of f := rfl
        _ < u64Mod := balance_of_lt_of_WF t f h
  | approve o s a =>
    simpa [applyOp, TokenICRC2.approve, balancesWF] using h
  | mint c to_ a =>
    by_cases hc : c ∈ t.minters
    · simp only [applyOp]
      simp [TokenICRC2.mint, hc]
      intro p hp
      exact balancesWF_setA _ _ _ h (Nat.mod_lt _ u64Mod_pos) p hp
    · simpa [applyOp, TokenICRC2.mint, hc] using h
  | add_minter c m =>
    unfold applyOp TokenICRC2.add_minter
    by_cases hc : c = t.get_owner <;> simpa [hc, balancesWF] using h
  | burn_cycles c =>
    simpa [applyOp, TokenICRC2.burn_cycles, balancesWF] using h

theorem balancesWF_applyOps (t : TokenICRC2) (ops : List Op)
    (h : balancesWF t) : balancesWF (applyOps t ops) := by
  induction ops generalizing t with
  | nil => simpa [applyOps] using h
  | cons op rest ih => exact ih _ (balancesWF_applyOp t op h)

theorem balancesWF_new (owner T d : Nat) (nm sy : String) (hT : T < u64Mod) :
    balancesWF (TokenICRC2.new owner T d nm sy) := by
  intro p hp
  simp only [TokenICRC2.new, List.mem_singleton] at hp
  simpa [hp] using hT

theorem supplyInv_applyOp (t : TokenICRC2) (op : Op) (h : supplyInv t) :
    supplyInv (applyOp t op) := by
  cases op with
  | transfer f to_ a =>
    simp only [applyOp]
    unfold TokenICRC2.transfer
    by_cases hb : getD t.balances f 0 < a
    · simpa [hb] using h
    · simp only [if_neg hb]
      unfold supplyInv sumBalances at h ⊢
      dsimp only
      have h1 := sum_setA t.balances f (getD t.balances f 0 - a)
      have h2 := sum_setA (setA t.balances f (getD t.balances f 0 - a)) to_
        ((getD (setA t.balances f (getD t.balances f 0 - a)) to_ 0 + a) % u64Mod)
      unfold u64Mod at h h1 h2 ⊢
      omega
  | approve o s a =>
    simpa [applyOp, TokenICRC2.approve, supplyInv, sumBalances] using h
  | mint c to_ a =>
    by_cases hc : c ∈ t.minters
    · have hstep : applyOp t (Op.mint c to_ a)
          = { t with
              balances := setA t.balances to_ ((getD t.balances to_ 0 + a) % u64Mod)
              total_supply := (t.total_supply + a) % u64Mod
              transaction_history := t.transaction_history
                ++ [{ from_ := c, to_ := to_, amount := a, post_balance_from := 0,
                      post_balance_to :=
                        getD (setA t.balances to_ ((getD t.balances to_ 0 + a) % u64Mod)) to_ 0,
                      cycles_burnt := 0,
                      reason := "Minting operation has no cycle burn cost." }] } := by
        simp [applyOp, TokenICRC2.mint, hc]
      rw [hstep]
      unfold supplyInv sumBalances at h ⊢
      dsimp only
      have h1 := sum_setA t.balances to_ ((getD t.balances to_ 0 + a) % u64Mod)
      unfold u64Mod at h h1 ⊢
      omega
    · simpa [applyOp, TokenICRC2.mint, hc] using h
  | add_minter c m =>
    unfold applyOp TokenICRC2.add_minter
    by_cases hc : c = t.get_owner <;> simpa [hc, supplyInv, sumBalances] using h
  | burn_cycles c =>
    simpa [applyOp, TokenICRC2.burn_cycles, supplyInv, sumBalances] using h

theorem supplyInv_applyOps (t : TokenICRC2) (ops : List Op)
    (h : supplyInv t) : supplyInv (applyOps t ops) := by
  induction ops generalizing t with
  | nil => simpa [applyOps] using h
  | cons op rest ih => exact ih _ (supplyInv_applyOp t op h)

example :
    (TokenICRC2.new 7 1000 2 "Token" "TOK").balance_of 7 = 1000 := by decide

example :
    (((TokenICRC2.new 7 1000 2 "Token" "TOK").transfer 7 3 300).1).balance_of 3
      = 300 := by decide

example :
    (((TokenICRC2.new 7 1000 2 "Token" "TOK").transfer 3 7 500).2)
      = Except.error "Insufficient balance" := by decide

/-!  Claim theorems. -/

/-- Claim C1 (amended): after `create(owner, totalSupply, decimals, name,
symbol)` and any sequence of operations, the ledger's `total_supply` field
equals the sum of all values in the balances map reduced modulo `2 ^ 64`.
The exact (unreduced) equality claimed by the spec holds until a mint wraps
the `u64` supply counter while the mathematical balance sum does not. -/
theorem C1_totalSupply_eq_sumBalances_mod (owner T d : Nat) (nm sy : String)
    (ops : List Op) (hT : T < u64Mod) :
    (applyOps (TokenICRC2.new owner T d nm sy) ops).total_supply
      = sumBalances (applyOps (TokenICRC2.new owner T d nm sy) ops) % u64Mod := by
  refine supplyInv_applyOps _ ops ?_
  unfold supplyInv sumBalances TokenICRC2.new
  simpa using (Nat.mod_eq_of_lt hT).symm

/-- Claim C1 witness: a concrete run mixing transfers, minting, approvals
and cycle burning keeps `total_supply` equal to the balance sum mod `2 ^ 64`. -/
theorem C1_witness :
    (applyOps (TokenICRC2.new 7 1000 2 "Token" "TOK")
        [Op.transfer 7 3 300, Op.add_minter 7 5, Op.mint 5 3 200,
         Op.burn_cycles 9, Op.approve 3 4 50, Op.transfer 3 7 100]).total_supply
      = sumBalances (applyOps (TokenICRC2.new 7 1000 2 "Token" "TOK")
        [Op.transfer 7 3 300, Op.add_minter 7 5, Op.mint 5 3 200,
         Op.burn_cycles 9, Op.approve 3 4 50, Op.transfer 3 7 100]) % u64Mod :=
  C1_totalSupply_eq_sumBalances_mod 7 1000 2 "Token" "TOK"
    [Op.transfer 7 3 300, Op.add_minter 7 5, Op.mint 5 3 200,
     Op.burn_cycles 9, Op.approve 3 4 50, Op.transfer 3 7 100] (by decide)

/-- Claim C1 counterexample: start with supply `2 ^ 64 - 1`, move it all to
a second account, then mint 1 token: `total_supply` wraps to `0` while the
balance sum becomes `2 ^ 64`, so the exact equality of the claim fails. -/
theorem C1_counterexample :
    (applyOps (TokenICRC2.new 0 18446744073709551615 8 "Token" "TOK")
        [Op.transfer 0 1 18446744073709551615, Op.mint 0 0 1]).total_supply
      ≠ sumBalances (applyOps (TokenICRC2.new 0 18446744073709551615 8 "Token" "TOK")
        [Op.transfer 0 1 18446744073709551615, Op.mint 0 0 1]) := by decide

/-- Claim C2: `transfer(from, to, amount)` returns the insufficient-balance
error exactly when `balance_of from < amount`, and on that failure the whole
ledger state (all fields) is returned unchanged. -/
theorem C2_transfer_insufficient_iff (t : TokenICRC2) (f to_ : Principal)
    (a : Nat) :
    ((t.transfer f to_ a).2 = Except.error "Insufficient balance"
        ↔ t.balance_of f < a)
    ∧ (t.balance_of f < a → (t.transfer f to_ a).1 = t) := by
  unfold TokenICRC2.transfer TokenICRC2.balance_of
  by_cases hb : getD t.balances f 0 < a
  · simp [hb]
  · simp [hb]

/-- Claim C2 witness: account 3 holds nothing in a fresh ledger, so sending
500 from it fails and the state comes back unchanged. -/
theorem C2_witness :
    ((TokenICRC2.new 7 1000 2 "Token" "TOK").transfer 3 5 500).1
      = TokenICRC2.new 7 1000 2 "Token" "TOK" :=
  (C2_transfer_insufficient_iff (TokenICRC2.new 7 1000 2 "Token" "TOK") 3 5 500).2
    (by decide)

/-- Claim C3: a self-transfer `transfer(x, x, a)` with `a ≤ balance_of x`
succeeds, leaves every balance (including that of `x`) unchanged, and still
appends exactly one record to the transaction history.  (`balancesWF` is the
`u64` typing invariant of the Rust balances map.) -/
theorem C3_self_transfer (t : TokenICRC2) (x : Principal) (a : Nat)
    (hWF : balancesWF t) (ha : a ≤ t.balance_of x) :
    (t.transfer x x a).2 = Except.ok ()
    ∧ (∀ y, (t.transfer x x a).1.balance_of y = t.balance_of y)
    ∧ (t.transfer x x a).1.transaction_history.length
        = t.transaction_history.length + 1 := by
  have hb : t.balance_of x < u64Mod := balance_of_lt_of_WF t x hWF
  unfold TokenICRC2.balance_of at hb
  have hnb : ¬ getD t.balances x 0 < a := by
    unfold TokenICRC2.balance_of at ha
    omega
  have hbal2 : setA (setA t.balances x (getD t.balances x 0 - a)) x
        ((getD (setA t.balances x (getD t.balances x 0 - a)) x 0 + a) % u64Mod)
      = setA (setA t.balances x (getD t.balances x 0 - a)) x
        (getD t.balances x 0) := by
    rw [getD_setA_self]
    have hadd : getD t.balances x 0 - a + a = getD t.balances x 0 := by omega
    rw [hadd, Nat.mod_eq_of_lt hb]
  unfold TokenICRC2.transfer
  simp only [if_neg hnb, hbal2]
  refine ⟨trivial, ?_, by simp⟩
  intro y
  unfold TokenICRC2.balance_of
  dsimp only
  by_cases hy : y = x
  · subst hy
    rw [getD_setA_self]
  · rw [getD_setA_other _ _ _ _ hy, getD_setA_other _ _ _ _ hy]

/-- Claim C3 witness: in a fresh ledger the owner self-transfers 300 of its
1000 tokens; this succeeds, leaves all balances as they were, and grows the
history by one record. -/
theorem C3_witness :
    ((TokenICRC2.new 7 1000 2 "Token" "TOK").transfer 7 7 300).2 = Except.ok ()
    ∧ ((TokenICRC2.new 7 1000 2 "Token" "TOK").transfer 7 7 300).1.balance_of 7
        = (TokenICRC2.new 7 1000 2 "Token" "TOK").balance_of 7
    ∧ ((TokenICRC2.new 7 1000 2 "Token" "TOK").transfer 7 7 300).1.transaction_history.length
        = (TokenICRC2.new 7 1000 2 "Token" "TOK").transaction_history.length + 1 :=
  ⟨(C3_self_transfer (TokenICRC2.new 7 1000 2 "Token" "TOK") 7 300
      (by unfold balancesWF; decide) (by decide)).1,
   (C3_self_transfer (TokenICRC2.new 7 1000 2 "Token" "TOK") 7 300
      (by unfold balancesWF; decide) (by decide)).2.1 7,
   (C3_self_transfer (TokenICRC2.new 7 1000 2 "Token" "TOK") 7 300
      (by unfold balancesWF; decide) (by decide)).2.2⟩

/-- Claim C4: the record appended by a successful transfer carries
`cycles_burnt` equal to the ledger's cumulative `burnt_cycles` counter at
call time (not a per-call fee), and its reason is the burnt-cycles text
exactly when that counter is nonzero, the no-cycles text exactly when it is
zero. -/
theorem C4_transfer_record_cycles (t : TokenICRC2) (f to_ : Principal)
    (a : Nat) (h : (t.transfer f to_ a).2 = Except.ok ()) :
    (t.transfer f to_ a).1.transaction_history.length
        = t.transaction_history.length + 1
    ∧ (t.transfer f to_ a).1.transaction_history.getLast?.map
          TransactionRecord.cycles_burnt = some t.burnt_cycles
    ∧ ((t.transfer f to_ a).1.transaction_history.getLast?.map
          TransactionRecord.reason = some TokenICRC2.cyclesBurntReason
        ↔ 0 < t.burnt_cycles)
    ∧ ((t.transfer f to_ a).1.transaction_history.getLast?.map
          TransactionRecord.reason = some TokenICRC2.noCyclesReason
        ↔ t.burnt_cycles = 0) := by
  unfold TokenICRC2.transfer at h ⊢
  by_cases hb : getD t.balances f 0 < a
  · simp [hb] at h
  · simp only [if_neg hb]
    rw [List.getLast?_concat]
    simp only [Option.map_some', Option.some.injEq]
    refine ⟨by simp, trivial, ?_, ?_⟩
    · by_cases hc : 0 < t.burnt_cycles
      · rw [if_pos hc]
        exact ⟨fun _ => hc, fun _ => rfl⟩
      · rw [if_neg hc]
        exact ⟨fun habs => absurd habs.symm reasons_ne, fun habs => absurd habs hc⟩
    · by_cases hc : 0 < t.burnt_cycles
      · rw [if_pos hc]
        exact ⟨fun habs => absurd habs reasons_ne, fun habs => absurd habs (by omega)⟩
      · rw [if_neg hc]
        exact ⟨fun _ => by omega, fun _ => rfl⟩

/-- Claim C4 witness: after burning 5 cycles, a successful transfer appends
one record whose `cycles_burnt` is the cumulative counter 5 and whose
reason is the burnt-cycles text. -/
theorem C4_witness :
    (((TokenICRC2.new 7 1000 2 "Token" "TOK").burn_cycles 5).transfer 7 3 100).1.transaction_history.length
        = ((TokenICRC2.new 7 1000 2 "Token" "TOK").burn_cycles 5).transaction_history.length + 1
    ∧ (((TokenICRC2.new 7 1000 2 "Token" "TOK").burn_cycles 5).transfer 7 3 100).1.transaction_history.getLast?.map
          TransactionRecord.cycles_burnt
        = some ((TokenICRC2.new 7 1000 2 "Token" "TOK").burn_cycles 5).burnt_cycles
    ∧ ((((TokenICRC2.new 7 1000 2 "Token" "TOK").burn_cycles 5).transfer 7 3 100).1.transaction_history.getLast?.map
          TransactionRecord.reason = some TokenICRC2.cyclesBurntReason
        ↔ 0 < ((TokenICRC2.new 7 1000 2 "Token" "TOK").burn_cycles 5).burnt_cycles)
    ∧ ((((TokenICRC2.new 7 1000 2 "Token" "TOK").burn_cycles 5).transfer 7 3 100).1.transaction_history.getLast?.map
          TransactionRecord.reason = some TokenICRC2.noCyclesReason
        ↔ ((TokenICRC2.new 7 1000 2 "Token" "TOK").burn_cycles 5).burnt_cycles = 0) :=
  C4_transfer_record_cycles ((TokenICRC2.new 7 1000 2 "Token" "TOK").burn_cycles 5)
    7 3 100 (by decide)

/-- Claim C5: `approve(owner, spender, amount)` always succeeds, afterwards
`allowance(owner, spender)` returns exactly `amount` whatever was approved
before (absolute overwrite), and every other (owner, spender) pair keeps its
previous allowance. -/
theorem C5_approve_overwrite (t : TokenICRC2) (o s a : Nat) :
    (t.approve o s a).2 = Except.ok ()
    ∧ (t.approve o s a).1.allowance o s = a
    ∧ (∀ o' s', o' ≠ o ∨ s' ≠ s →
        (t.approve o s a).1.allowance o' s' = t.allowance o' s') := by
  refine ⟨rfl, ?_, ?_⟩
  · unfold TokenICRC2.approve TokenICRC2.allowance
    dsimp only
    rw [lookupA_setA_self]
    exact getD_setA_self _ _ _
  · intro o' s' hne
    unfold TokenICRC2.approve TokenICRC2.allowance
    dsimp only
    by_cases ho : o' = o
    · subst ho
      rcases hne with ho | hs
      · exact absurd rfl ho
      · rw [lookupA_setA_self]
        cases hl : lookupA t.allowances o' with
        | none => simp [getD_setA_other _ _ _ _ hs, getD, lookupA, hs]
        | some m => simp [getD_setA_other _ _ _ _ hs]
    · rw [lookupA_setA_other _ _ _ _ ho]

/-- Claim C5 witness: owner 7 approves 50 for spender 3 in a fresh ledger;
the (7, 3) allowance reads back 50 and the (7, 4) allowance is untouched. -/
theorem C5_witness :
    ((TokenICRC2.new 7 1000 2 "Token" "TOK").approve 7 3 50).1.allowance 7 3 = 50
    ∧ ((TokenICRC2.new 7 1000 2 "Token" "TOK").approve 7 3 50).1.allowance 7 4
        = (TokenICRC2.new 7 1000 2 "Token" "TOK").allowance 7 4 :=
  ⟨(C5_approve_overwrite (TokenICRC2.new 7 1000 2 "Token" "TOK") 7 3 50).2.1,
   (C5_approve_overwrite (TokenICRC2.new 7 1000 2 "Token" "TOK") 7 3 50).2.2 7 4
     (Or.inr (by decide))⟩

/-- Claim C6 (amended): when the requester is a minter, `mint(requester, to,
amount)` succeeds, sets the destination balance to its old value plus
`amount` reduced modulo `2 ^ 64`, sets `total_supply` to its old value plus
`amount` reduced modulo `2 ^ 64` (exact increments whenever no `u64`
overflow occurs), leaves other balances alone, and appends a record with
`from = requester`, `post_balance_from = 0`, `post_balance_to` the updated
destination balance, `cycles_burnt = 0` and the fixed reason text; when the
requester is not a minter it fails with the not-authorized error and the
ledger is unmodified. -/
theorem C6_mint_effects (t : TokenICRC2) (caller to_ : Principal) (a : Nat) :
    (caller ∈ t.minters →
      (t.mint caller to_ a).2 = Except.ok ()
      ∧ (t.mint caller to_ a).1.balance_of to_ = (t.balance_of to_ + a) % u64Mod
      ∧ (t.mint caller to_ a).1.total_supply = (t.total_supply + a) % u64Mod
      ∧ (∀ y, y ≠ to_ → (t.mint caller to_ a).1.balance_of y = t.balance_of y)
      ∧ (t.mint caller to_ a).1.transaction_history
          = t.transaction_history
            ++ [{ from_ := caller, to_ := to_, amount := a, post_balance_from := 0,
                  post_balance_to := (t.balance_of to_ + a) % u64Mod,
                  cycles_burnt := 0,
                  reason := "Minting operation has no cycle burn cost." }])
    ∧ (caller ∉ t.minters →
      t.mint caller to_ a = (t, Except.error "Caller is not authorized to mint")) := by
  constructor
  · intro hc
    have hstep : t.mint caller to_ a
        = ({ t with
             balances := setA t.balances to_ ((getD t.balances to_ 0 + a) % u64Mod)
             total_supply := (t.total_supply + a) % u64Mod
             transaction_history := t.transaction_history
               ++ [{ from_ := caller, to_ := to_, amount := a, post_balance_from := 0,
                     post_balance_to :=
                       getD (setA t.balances to_ ((getD t.balances to_ 0 + a) % u64Mod)) to_ 0,
                     cycles_burnt := 0,
                     reason := "Minting operation has no cycle burn cost." }] },
           Except.ok ()) := by
      simp [TokenICRC2.mint, hc]
    rw [hstep]
    have hpost : getD (setA t.balances to_ ((getD t.balances to_ 0 + a) % u64Mod)) to_ 0
        = (t.balance_of to_ + a) % u64Mod := by
      rw [getD_setA_self]
      rfl
    refine ⟨rfl, ?_, rfl, ?_, ?_⟩
    · unfold TokenICRC2.balance_of
      dsimp only
      rw [getD_setA_self]
    · intro y hy
      unfold TokenICRC2.balance_of
      dsimp only
      rw [getD_setA_other _ _ _ _ hy]
    · dsimp only
      rw [hpost]
  · intro hc
    simp [TokenICRC2.mint, hc]

/-- Claim C6 witness: the owner of a fresh ledger mints 200 tokens to
account 3 (no overflow, so the modular additions are the plain ones), and a
non-minter caller is rejected. -/
theorem C6_witness :
    ((TokenICRC2.new 7 1000 2 "Token" "TOK").mint 7 3 200).2 = Except.ok ()
    ∧ ((TokenICRC2.new 7 1000 2 "Token" "TOK").mint 7 3 200).1.balance_of 3
        = ((TokenICRC2.new 7 1000 2 "Token" "TOK").balance_of 3 + 200) % u64Mod
    ∧ ((TokenICRC2.new 7 1000 2 "Token" "TOK").mint 7 3 200).1.total_supply
        = ((TokenICRC2.new 7 1000 2 "Token" "TOK").total_supply + 200) % u64Mod
    ∧ (TokenICRC2.new 7 1000 2 "Token" "TOK").mint 4 3 200
        = (TokenICRC2.new 7 1000 2 "Token" "TOK",
           Except.error "Caller is not authorized to mint") :=
  ⟨((C6_mint_effects (TokenICRC2.new 7 1000 2 "Token" "TOK") 7 3 200).1 (by decide)).1,
   ((C6_mint_effects (TokenICRC2.new 7 1000 2 "Token" "TOK") 7 3 200).1 (by decide)).2.1,
   ((C6_mint_effects (TokenICRC2.new 7 1000 2 "Token" "TOK") 7 3 200).1 (by decide)).2.2.1,
   (C6_mint_effects (TokenICRC2.new 7 1000 2 "Token" "TOK") 4 3 200).2 (by decide)⟩

/-- Claim C6 counterexample: with the supply already at the `u64` maximum,
the owner mints 1 token to itself.  The call succeeds, but the destination
balance wraps from `2 ^ 64 - 1` to `0` instead of increasing by the amount,
and `total_supply` wraps to `0` instead of increasing by the amount, so the
claim's exact "credits by amount / increases by amount" fails. -/
theorem C6_counterexample :
    ((TokenICRC2.new 0 18446744073709551615 8 "Token" "TOK").mint 0 0 1).2
        = Except.ok ()
    ∧ ((TokenICRC2.new 0 18446744073709551615 8 "Token" "TOK").mint 0 0 1).1.balance_of 0
        ≠ (TokenICRC2.new 0 18446744073709551615 8 "Token" "TOK").balance_of 0 + 1
    ∧ ((TokenICRC2.new 0 18446744073709551615 8 "Token" "TOK").mint 0 0 1).1.total_supply
        ≠ (TokenICRC2.new 0 18446744073709551615 8 "Token" "TOK").total_supply + 1 := by
  decide

/-- Claim C7: `add_minter(requester, newMinter)` succeeds exactly when the
requester is the ledger owner, in which case the new minter is inserted into
the minter set; any other requester gets the not-owner error with the state
unchanged; inserting an existing minter is a no-op that still succeeds. -/
theorem C7_add_minter_owner_only (t : TokenICRC2) (caller minter : Principal) :
    (caller = t.owner →
      t.add_minter caller minter
        = ({ t with minters := insertSet t.minters minter }, Except.ok ()))
    ∧ (caller ≠ t.owner →
      t.add_minter caller minter
        = (t, Except.error "Only the owner can add minters"))
    ∧ (caller = t.owner → minter ∈ t.minters →
      t.add_minter caller minter = (t, Except.ok ())) := by
  refine ⟨fun h => ?_, fun h => ?_, fun h hm => ?_⟩
  · simp [TokenICRC2.add_minter, TokenICRC2.get_owner, h]
  · simp [TokenICRC2.add_minter, TokenICRC2.get_owner, h]
  · simp [TokenICRC2.add_minter, TokenICRC2.get_owner, h, insertSet, hm]

/-- Claim C7 witness: the owner (7) may add minter 5; caller 3 is rejected
with the ledger unchanged; re-adding the owner itself is a successful
no-op. -/
theorem C7_witness :
    (TokenICRC2.new 7 1000 2 "Token" "TOK").add_minter 7 5
      = ({ TokenICRC2.new 7 1000 2 "Token" "TOK" with
            minters := insertSet (TokenICRC2.new 7 1000 2 "Token" "TOK").minters 5 },
         Except.ok ())
    ∧ (TokenICRC2.new 7 1000 2 "Token" "TOK").add_minter 3 5
      = (TokenICRC2.new 7 1000 2 "Token" "TOK",
         Except.error "Only the owner can add minters")
    ∧ (TokenICRC2.new 7 1000 2 "Token" "TOK").add_minter 7 7
      = (TokenICRC2.new 7 1000 2 "Token" "TOK", Except.ok ()) :=
  ⟨(C7_add_minter_owner_only (TokenICRC2.new 7 1000 2 "Token" "TOK") 7 5).1 (by decide),
   (C7_add_minter_owner_only (TokenICRC2.new 7 1000 2 "Token" "TOK") 3 5).2.1 (by decide),
   (C7_add_minter_owner_only (TokenICRC2.new 7 1000 2 "Token" "TOK") 7 7).2.2
     (by decide) (by decide)⟩

/-- Claim C8 (amended): before `init_token` has run (state `none`), every
query method returns its zero/empty default, and the mutating methods
`add_minter`, `mint`, `approve` and `transfer` fail explicitly with the
not-initialized error; `burn_cycles`, however, does not fail — its Rust
signature returns `()` unconditionally, so on an uninitialized token it
silently does nothing and still replies successfully. -/
theorem C8_uninitialized_behaviour (user o s caller minter to_ : Principal)
    (a c : Nat) :
    balance_of_canister none user = 0
    ∧ total_supply_canister none = 0
    ∧ symbol_canister none = ""
    ∧ name_canister none = ""
    ∧ decimals_canister none = 0
    ∧ allowance_canister none o s = 0
    ∧ burnt_cycles_canister none = 0
    ∧ get_transaction_history_canister none = []
    ∧ add_minter_canister none caller minter
        = (none, Except.error "Token not initialized")
    ∧ mint_canister none caller to_ a
        = (none, Except.error "Token not initialized")
    ∧ approve_canister none caller s a
        = (none, Except.error "Token not initialized")
    ∧ transfer_canister none caller to_ a
        = (none, Except.error "Token not initialized")
    ∧ burn_cycles_canister none c = (none, Except.ok ()) :=
  ⟨rfl, rfl, rfl, rfl, rfl, rfl, rfl, rfl, rfl, rfl, rfl, rfl, rfl⟩

/-- Claim C8 counterexample: `burn_cycles` invoked before initialization
does not fail with the not-initialized error — the exported Rust function
returns `()` (a successful empty reply) and leaves the state `none`. -/
theorem C8_counterexample :
    burn_cycles_canister none 5 = (none, Except.ok ())
    ∧ (burn_cycles_canister none 5).2 ≠ Except.error "Token not initialized" := by
  decide

/-- Claim C9 (amended): `burn_cycles(amount)` never fails, replaces
`burnt_cycles` by `burnt_cycles + amount` reduced modulo `2 ^ 64`, and
changes no other field; the counter is non-decreasing as long as the `u64`
addition does not wrap (and in particular the exact increase claimed by the
spec holds below `2 ^ 64`). -/
theorem C9_burn_cycles_frame (t : TokenICRC2) (c : Nat) :
    (t.burn_cycles c).burnt_cycles = (t.burnt_cycles + c) % u64Mod
    ∧ (t.burn_cycles c).balances = t.balances
    ∧ (t.burn_cycles c).allowances = t.allowances
    ∧ (t.burn_cycles c).minters = t.minters
    ∧ (t.burn_cycles c).owner = t.owner
    ∧ (t.burn_cycles c).total_supply = t.total_supply
    ∧ (t.burn_cycles c).decimals = t.decimals
    ∧ (t.burn_cycles c).name = t.name
    ∧ (t.burn_cycles c).symbol = t.symbol
    ∧ (t.burn_cycles c).transaction_history = t.transaction_history
    ∧ (t.burnt_cycles + c < u64Mod →
        t.burnt_cycles ≤ (t.burn_cycles c).burnt_cycles) := by
  refine ⟨rfl, rfl, rfl, rfl, rfl, rfl, rfl, rfl, rfl, rfl, fun h => ?_⟩
  unfold TokenICRC2.burn_cycles
  dsimp only
  rw [Nat.mod_eq_of_lt h]
  omega

/-- Claim C9 witness: burning 5 cycles on a fresh ledger only moves the
counter from 0 to 5, which is a non-decrease. -/
theorem C9_witness :
    (TokenICRC2.new 7 1000 2 "Token" "TOK").burnt_cycles
      ≤ ((TokenICRC2.new 7 1000 2 "Token" "TOK").burn_cycles 5).burnt_cycles :=
  (C9_burn_cycles_frame (TokenICRC2.new 7 1000 2 "Token" "TOK") 5).2.2.2.2.2.2.2.2.2.2
    (by decide)

/-- Claim C9 counterexample: two successive burns of `2 ^ 64 - 1` cycles
wrap the `u64` counter, so it strictly decreases — the claimed exact
increase and monotonic non-decrease both fail at that input. -/
theorem C9_counterexample :
    (((TokenICRC2.new 7 1000 2 "Token" "TOK").burn_cycles 18446744073709551615).burn_cycles
        18446744073709551615).burnt_cycles
      < ((TokenICRC2.new 7 1000 2 "Token" "TOK").burn_cycles
          18446744073709551615).burnt_cycles := by
  decide

/-- Claim C10: allowances are write-only apart from the `allowance` query —
no operation other than `approve` modifies the allowances map, every
operation's outcome and effects are unchanged when the whole allowances map
is replaced by anything else, and no query except `allowance` reads it. -/
theorem C10_allowances_isolated (t : TokenICRC2)
    (A : List (Principal × List (Principal × Nat)))
    (f to_ caller minter u : Principal) (a cy : Nat) :
    (t.transfer f to_ a).1.allowances = t.allowances
    ∧ (t.mint caller to_ a).1.allowances = t.allowances
    ∧ (t.add_minter caller minter).1.allowances = t.allowances
    ∧ (t.burn_cycles cy).allowances = t.allowances
    ∧ (setAllowances t A).transfer f to_ a
        = (setAllowances (t.transfer f to_ a).1 A, (t.transfer f to_ a).2)
    ∧ (setAllowances t A).mint caller to_ a
        = (setAllowances (t.mint caller to_ a).1 A, (t.mint caller to_ a).2)
    ∧ (setAllowances t A).add_minter caller minter
        = (setAllowances (t.add_minter caller minter).1 A,
           (t.add_minter caller minter).2)
    ∧ (setAllowances t A).burn_cycles cy = setAllowances (t.burn_cycles cy) A
    ∧ (setAllowances t A).balance_of u = t.balance_of u
    ∧ (setAllowances t A).total_supply = t.total_supply
    ∧ (setAllowances t A).burnt_cycles = t.burnt_cycles
    ∧ (setAllowances t A).minters = t.minters
    ∧ (setAllowances t A).get_transaction_history = t.get_transaction_history := by
  refine ⟨?_, ?_, ?_, rfl, ?_, ?_, ?_, rfl, rfl, rfl, rfl, rfl, rfl⟩
  · unfold TokenICRC2.transfer
    by_cases hb : getD t.balances f 0 < a <;> simp [hb]
  · unfold TokenICRC2.mint
    by_cases hc : caller ∈ t.minters <;> simp [hc]
  · unfold TokenICRC2.add_minter
    by_cases hc : caller = t.get_owner <;> simp [hc]
  · unfold TokenICRC2.transfer setAllowances
    by_cases hb : getD t.balances f 0 < a <;> simp [hb]
  · unfold TokenICRC2.mint setAllowances
    by_cases hc : caller ∈ t.minters <;> simp [hc]
  · unfold TokenICRC2.add_minter setAllowances TokenICRC2.get_owner
    by_cases hc : caller = t.owner <;> simp [hc]
